/-
  Verification of the pico_measurement_station data logger (src/code.py).

  Shallow embedding conventions:
  - Python byte strings are `List Nat` (one Nat per byte, values < 256 where it
    matters, with explicit `% 256` at the points the code narrows to bytes);
  - Python floats carrying exact sensor statistics are modelled as `ℚ`
    (the claims under study only involve exact arithmetic on small values);
  - the UDP socket is modelled by an environment (`TftpServer`) describing the
    datagrams the peer answers with (`none` = receive timeout, which the code
    surfaces as an exception), and the client's observable behaviour is the
    sequence of datagrams it sends plus whether `sock.close()` was executed;
  - the `__main__` delivery phase (lines 439-464) is a pure state transformer
    over (duty-cycle counter, in-memory batch), indexed by the outcomes of the
    individual `send_log_file` calls.
-/
import Mathlib

namespace Pico

/-- A byte, modelled as `Nat` (narrowed with `% 256` where the code does). -/
abbrev Byte := Nat

/-- A byte string, e.g. a datagram payload. -/
abbrev Bytes := List Nat

/-- A network address `(ip, port)` as used by `sendto`/`recvfrom`. -/
structure Addr where
  ip : String
  port : Nat
deriving DecidableEq, Repr

/-- `configuration()` (code.py lines 358-377): the fields the verified claims
depend on. `num_of_cycles` is the duty-cycle threshold, `num_of_send_retries`
the delivery retry budget. -/
structure Config where
  num_of_cycles : Nat
  num_of_measurements : Nat
  measurement_filename : String
  num_of_send_retries : Nat
deriving DecidableEq, Repr

/-- The concrete configuration returned by `configuration()`. -/
def configuration : Config :=
  { num_of_cycles := 10
    num_of_measurements := 3
    measurement_filename := "data.json"
    num_of_send_retries := 3 }

/-- One entry of `measurements["data"]` (code.py line 429). -/
structure MeasurementRecord where
  temperature : ℚ
  distance : ℚ
  timestamp : String
deriving DecidableEq, Repr

/-! ## get_median (code.py lines 218-223)

`sorted(values)` is modelled by `List.insertionSort (· ≤ ·)`: both produce the
ascending reordering of the input (over `ℚ`, where the sorted permutation is
unique).  Python list indexing on the guaranteed-in-range positions is
modelled by `getD` (the claims only concern non-empty inputs, where the
indices are in range). -/

/-- `get_median(values)`: sort, take the middle element if the length is odd,
otherwise the mean of the two middle elements. -/
def get_median (values : List ℚ) : ℚ :=
  let sorted_values := values.insertionSort (· ≤ ·)
  let mid := sorted_values.length / 2
  if sorted_values.length % 2 = 1 then sorted_values.getD mid 0
  else (sorted_values.getD (mid - 1) 0 + sorted_values.getD mid 0) / 2

/-- The spec's "standard order-statistic median" of an already **sorted**
sequence: middle element for odd length, mean of the two middle elements for
even length.  Used as the comparison point for `get_median`. -/
def medianSpec (s : List ℚ) : ℚ :=
  if s.length % 2 = 1 then s.getD (s.length / 2) 0
  else (s.getD (s.length / 2 - 1) 0 + s.getD (s.length / 2) 0) / 2

/-! ## get_avg (code.py lines 208-214) -/

/-- `get_avg(values)`: sum divided by length. -/
def get_avg (values : List ℚ) : ℚ :=
  values.sum / values.length

/-! ## Duty-cycle counter persistence (code.py lines 402 and 477)

`microcontroller.nvm` is a byte array; slot 0 holds the counter.
`cycle = int(microcontroller.nvm[0])` reads it back verbatim;
`microcontroller.nvm[0] = cycle` stores one byte. -/

/-- Line 402: `cycle = int(microcontroller.nvm[0])` — the counter load is the
raw byte at slot 0 of non-volatile memory; there is no defaulting branch. -/
def nvm_load (nvm0 : Byte) : Nat := nvm0

/-- Line 477: `microcontroller.nvm[0] = cycle` — the counter save stores the
value into the one-byte slot. -/
def nvm_save (cycle : Nat) : Byte := cycle % 256

/-! ## Measurement store load (code.py lines 387-395)

`open` + `json.load` either yields the stored batch or raises; the `except`
branch substitutes `{"data": []}`.  The outcome of the read/parse is the
`Except` argument. -/

/-- Lines 387-395: on a successful read/parse the stored batch is used; on any
read or parse failure (missing file, malformed content) the empty batch is
substituted. -/
def loadMeasurements (readResult : Except String (List MeasurementRecord)) :
    List MeasurementRecord :=
  match readResult with
  | .ok batch => batch
  | .error _ => []

/-! ## Quote replacement (code.py line 124) -/

/-- Line 124: `data = input_data.replace("'", '"')` — every single-quote byte
(39) becomes a double-quote byte (34); all other bytes pass through. -/
def replaceQuotes (input_data : Bytes) : Bytes :=
  input_data.map (fun b => if b = 39 then 34 else b)

/-! ## TFTP write client: send_log_file (code.py lines 120-204)

The socket is modelled by the environment `TftpServer`: `wrqReply` is the
datagram (payload and source address) answering the WRQ, `dataAcks bn` the
datagram answering the data block numbered `bn`; `none` means the receive
times out, which `settimeout(5)` turns into an exception that the blanket
`except` on line 201 catches.  The observable outcome records each datagram
sent (destination, block number, payload), the boolean return value, and
whether `sock.close()` ran before returning. -/

/-- Python's `response.startswith(pat)`. -/
def bytesStartsWith : Bytes → Bytes → Bool
  | _, [] => true
  | [], _ :: _ => false
  | a :: as, b :: bs => a == b && bytesStartsWith as bs

/-- `block_number.to_bytes(2, 'big')`: two big-endian bytes. -/
def be2 (n : Nat) : Bytes := [n / 256 % 256, n % 256]

/-- Environment: what the TFTP server answers with. -/
structure TftpServer where
  wrqReply : Option (Bytes × Addr)
  dataAcks : Nat → Option Bytes

/-- One data datagram sent during the block loop: its destination, the block
number it carries, and its payload slice. -/
structure DataEvent where
  dest : Addr
  blockNum : Nat
  payload : Bytes
deriving DecidableEq, Repr

/-- Observable outcome of one `send_log_file` call. -/
structure SendOutcome where
  ok : Bool
  wrqDest : Addr
  wrqPacket : Bytes
  blockEvents : List DataEvent
  sockClosed : Bool
deriving DecidableEq, Repr

/-- The block loop (code.py lines 165-191), started at `block_number = 1`,
`offset = 0`; `rest` is `data[offset:]`.  Each iteration slices
`data[offset:offset+512]`, sends `\x00\x03 + blockNum + block`, and waits for
the ACK.  Returns the data datagrams sent and `none` when the receive raised
(timeout — line 201's handler returns without closing), `some errFlag`
otherwise (`errFlag` from the mismatched-ACK break on line 182). -/
def sendBlocks (acks : Nat → Option Bytes) (dest : Addr) :
    Bytes → Nat → List DataEvent × Option Bool
  | rest, block_number =>
    match acks block_number with
    | none => ([⟨dest, block_number, rest.take 512⟩], none)
    | some response =>
      if bytesStartsWith response ([0, 4] ++ be2 block_number) = false then
        ([⟨dest, block_number, rest.take 512⟩], some true)
      else if h : (rest.take 512).length < 512 then
        ([⟨dest, block_number, rest.take 512⟩], some false)
      else
        let r := sendBlocks acks dest (rest.drop 512) (block_number + 1)
        (⟨dest, block_number, rest.take 512⟩ :: r.1, r.2)
termination_by rest _ => rest.length
decreasing_by
  simp only [List.length_take, List.length_drop, not_lt, le_min_iff] at h ⊢
  omega

/-- `send_log_file(pool, server_ip, input_data, filename)` (lines 120-204):
replace quotes, send the WRQ `\x00\x02 + filename + \x00 + octet + \x00` to
`(server_ip, tftp_port)`, require the reply to start with
`\x00\x04\x00\x00`, learn the reply's source address, then run the block
loop against it.  `sockClosed` is true exactly on the paths that execute
`sock.close()` (lines 157 and 194); the exception paths (receive timeout)
return from the handler on lines 201-204 without it. -/
def send_log_file (srv : TftpServer) (server_ip : String) (tftp_port : Nat)
    (input_data : Bytes) (filename : Bytes) : SendOutcome :=
  let data := replaceQuotes input_data
  let mode : Bytes := [111, 99, 116, 101, 116]
  let wrq_packet : Bytes := [0, 2] ++ filename ++ [0] ++ mode ++ [0]
  let wrqDest : Addr := ⟨server_ip, tftp_port⟩
  match srv.wrqReply with
  | none =>
      -- recvfrom_into timed out: exception caught on line 201, no close
      { ok := false, wrqDest := wrqDest, wrqPacket := wrq_packet
        blockEvents := [], sockClosed := false }
  | some (response, server_address) =>
      if bytesStartsWith response [0, 4, 0, 0] = false then
        -- line 155-159: bad WRQ ACK, close and fail
        { ok := false, wrqDest := wrqDest, wrqPacket := wrq_packet
          blockEvents := [], sockClosed := true }
      else
        let r := sendBlocks srv.dataAcks server_address data 1
        match r.2 with
        | none =>
            -- timeout inside the loop: exception, no close
            { ok := false, wrqDest := wrqDest, wrqPacket := wrq_packet
              blockEvents := r.1, sockClosed := false }
        | some err_flag =>
            -- line 194: close, then return according to err_flag
            { ok := !err_flag, wrqDest := wrqDest, wrqPacket := wrq_packet
              blockEvents := r.1, sockClosed := true }

/-- A server whose data-phase ACKs are always well-formed:
`\x00\x04 + blockNum`. -/
def goodAcks : Nat → Option Bytes := fun bn => some ([0, 4] ++ be2 bn)

/-! ## Delivery phase of `__main__` (code.py lines 439-464)

The state the phase transforms is the duty-cycle counter `cycle`, the
in-memory batch `measurements["data"]`, and the `send_result` flag
(initialised to `False` on line 398).  The outcomes of the individual
`send_log_file` calls are abstracted as `sends : Nat → Bool` (`sends i` is
the return value of attempt `i`).  `attempts` instruments which attempts
were actually made, and `cleared` whether `measurements["data"].clear()` was
ever executed. -/

/-- State carried through the retry loop and out of the delivery phase. -/
structure LoopState (α : Type) where
  send_result : Bool
  batch : List α
  cycle : Nat
  attempts : List Nat
  cleared : Bool
deriving DecidableEq, Repr

/-- The `for i in range(retries)` loop (lines 447-456): each iteration calls
`send_log_file` (recorded in `attempts`); on success it clears the batch,
resets the counter to 1 and breaks; on failure it continues with
`send_result = False`. -/
def sendLoop {α : Type} (sends : Nat → Bool) :
    List Nat → LoopState α → LoopState α
  | [], st => st
  | i :: rest, st =>
    if sends i then
      { st with send_result := true, batch := [], cycle := 1
                attempts := st.attempts ++ [i], cleared := true }
    else
      sendLoop sends rest
        { st with send_result := false, attempts := st.attempts ++ [i] }

/-- Lines 439-464: if the counter has reached the threshold
(`cycle >= conf["num_of_cycles"]`), run the retry loop; afterwards, if no
attempt succeeded (`if not send_result`, line 458), clear the batch and
reset the counter to 1 anyway.  Below the threshold, just increment the
counter (line 464). -/
def deliveryPhase {α : Type} (sends : Nat → Bool) (conf : Config)
    (cycle : Nat) (batch : List α) : LoopState α :=
  if cycle ≥ conf.num_of_cycles then
    let st := sendLoop sends (List.range conf.num_of_send_retries)
      { send_result := false, batch := batch, cycle := cycle
        attempts := [], cleared := false }
    if st.send_result = false then
      { st with batch := [], cycle := 1, cleared := true }
    else st
  else
    { send_result := false, batch := batch, cycle := cycle + 1
      attempts := [], cleared := false }

/-- One whole wake cycle as far as the counter and batch are concerned: the
fresh record is appended (line 430) and then the delivery phase runs. -/
def runCycle {α : Type} (sends : Nat → Bool) (conf : Config)
    (cycle : Nat) (batch : List α) (record : α) : LoopState α :=
  deliveryPhase sends conf cycle (batch ++ [record])

/-- The counter trajectory across successive wake cycles, starting from 1:
`sends k` gives the send outcomes of cycle `k`, `records k` the record
appended in cycle `k`, `batches k` is determined by the run itself. -/
def counterTraj {α : Type} (sends : Nat → Nat → Bool)
    (records : Nat → α) : Nat → Nat × List α
  | 0 => (1, [])
  | k + 1 =>
    let p := counterTraj sends records k
    let st := runCycle (sends k) configuration p.1 p.2 (records k)
    (st.cycle, st.batch)

/-! ## Helper lemmas about the retry loop -/

theorem sendLoop_fail {α : Type} (sends : Nat → Bool) (l : List Nat)
    (st : LoopState α) (h0 : st.send_result = false)
    (h : (sendLoop sends l st).send_result = false) :
    sendLoop sends l st = { st with attempts := st.attempts ++ l } ∧
      ∀ i ∈ l, sends i = false := by
  induction l generalizing st with
  | nil =>
      refine ⟨?_, by simp⟩
      simp [sendLoop]
  | cons i rest ih =>
      by_cases hi : sends i = true
      · exfalso
        simp [sendLoop, hi] at h
      · simp only [Bool.not_eq_true] at hi
        have hstep : sendLoop sends (i :: rest) st =
            sendLoop sends rest
              { st with send_result := false, attempts := st.attempts ++ [i] } := by
          simp [sendLoop, hi]
        rw [hstep] at h ⊢
        obtain ⟨he, hall⟩ := ih _ rfl h
        refine ⟨?_, ?_⟩
        · rw [he]
          cases st with
          | mk sr ba cy at_ cl =>
              subst h0
              simp
        · intro j hj
          rcases List.mem_cons.mp hj with hj | hj
          · subst hj; exact hi
          · exact hall j hj

theorem sendLoop_success {α : Type} (sends : Nat → Bool) (l : List Nat)
    (st : LoopState α) (h0 : st.send_result = false)
    (h : (sendLoop sends l st).send_result = true) :
    (sendLoop sends l st).batch = [] ∧ (sendLoop sends l st).cycle = 1 ∧
      (sendLoop sends l st).cleared = true ∧
      ∃ i ∈ (sendLoop sends l st).attempts, sends i = true := by
  induction l generalizing st with
  | nil =>
      exfalso
      simp [sendLoop, h0] at h
  | cons i rest ih =>
      by_cases hi : sends i = true
      · refine ⟨by simp [sendLoop, hi], by simp [sendLoop, hi],
          by simp [sendLoop, hi], ⟨i, ?_, hi⟩⟩
        simp [sendLoop, hi]
      · simp only [Bool.not_eq_true] at hi
        have hstep : sendLoop sends (i :: rest) st =
            sendLoop sends rest
              { st with send_result := false, attempts := st.attempts ++ [i] } := by
          simp [sendLoop, hi]
        rw [hstep] at h ⊢
        exact ih _ rfl h

theorem deliveryPhase_cycle {α : Type} (sends : Nat → Bool) (conf : Config)
    (c : Nat) (b : List α) :
    (deliveryPhase sends conf c b).cycle =
      if conf.num_of_cycles ≤ c then 1 else c + 1 := by
  by_cases hc : conf.num_of_cycles ≤ c
  · simp only [deliveryPhase, ge_iff_le, hc, if_pos]
    set st := sendLoop sends (List.range conf.num_of_send_retries)
      ({ send_result := false, batch := b, cycle := c
         attempts := [], cleared := false } : LoopState α) with hst
    by_cases hsr : st.send_result = false
    · simp [hsr]
    · simp only [Bool.not_eq_false] at hsr
      have := sendLoop_success sends (List.range conf.num_of_send_retries)
        { send_result := false, batch := b, cycle := c
          attempts := [], cleared := false } rfl (hst ▸ hsr)
      simp only [← hst] at this
      simp [hsr, this.2.1]
  · simp [deliveryPhase, hc]

theorem deliveryPhase_threshold {α : Type} (sends : Nat → Bool) (conf : Config)
    (c : Nat) (b : List α) (hc : conf.num_of_cycles ≤ c) :
    (deliveryPhase sends conf c b).batch = [] ∧
      (deliveryPhase sends conf c b).cleared = true := by
  simp only [deliveryPhase, ge_iff_le, hc, if_pos]
  set st := sendLoop sends (List.range conf.num_of_send_retries)
    ({ send_result := false, batch := b, cycle := c
       attempts := [], cleared := false } : LoopState α) with hst
  by_cases hsr : st.send_result = false
  · simp [hsr]
  · simp only [Bool.not_eq_false] at hsr
    have := sendLoop_success sends (List.range conf.num_of_send_retries)
      { send_result := false, batch := b, cycle := c
        attempts := [], cleared := false } rfl (hst ▸ hsr)
    simp only [← hst] at this
    simp [hsr, this.1, this.2.2.1]

theorem deliveryPhase_below {α : Type} (sends : Nat → Bool) (conf : Config)
    (c : Nat) (b : List α) (hc : c < conf.num_of_cycles) :
    deliveryPhase sends conf c b =
      { send_result := false, batch := b, cycle := c + 1
        attempts := [], cleared := false } := by
  simp [deliveryPhase, Nat.not_le.mpr hc]

/-- At the threshold, the delivery phase ends in one of exactly two ways:
either every attempt in the full retry budget was made and failed, or some
attempt succeeded. -/
theorem deliveryPhase_threshold_cases {α : Type} (sends : Nat → Bool)
    (conf : Config) (c : Nat) (b : List α) (hc : conf.num_of_cycles ≤ c) :
    ((deliveryPhase sends conf c b).attempts =
        List.range conf.num_of_send_retries ∧
      (∀ i ∈ List.range conf.num_of_send_retries, sends i = false) ∧
      (deliveryPhase sends conf c b).send_result = false) ∨
    ((deliveryPhase sends conf c b).send_result = true ∧
      ∃ i ∈ (deliveryPhase sends conf c b).attempts, sends i = true) := by
  simp only [deliveryPhase, ge_iff_le, hc, if_pos]
  set st := sendLoop sends (List.range conf.num_of_send_retries)
    ({ send_result := false, batch := b, cycle := c
       attempts := [], cleared := false } : LoopState α) with hst
  by_cases hsr : st.send_result = false
  · left
    obtain ⟨he, hall⟩ := sendLoop_fail sends (List.range conf.num_of_send_retries)
      { send_result := false, batch := b, cycle := c
        attempts := [], cleared := false } rfl (hst ▸ hsr)
    simp only [← hst] at he
    refine ⟨?_, hall, ?_⟩
    · simp [hsr, he]
    · simp [hsr, he]
  · right
    simp only [Bool.not_eq_false] at hsr
    have h := sendLoop_success sends (List.range conf.num_of_send_retries)
      { send_result := false, batch := b, cycle := c
        attempts := [], cleared := false } rfl (hst ▸ hsr)
    simp only [← hst] at h
    simp [hsr, h.2.2.2]

/-- C1 (corrected), counterexample to the claim as stated: with the counter
at the threshold, a one-record batch and all three delivery attempts
failing, the in-memory batch after the delivery phase is NOT the batch
before it — line 459 clears it. -/
theorem C1_counterexample :
    (deliveryPhase (fun _ => false) configuration 10 [(0 : Nat)]).batch
      ≠ [(0 : Nat)] := by decide

/-- C1 (amended): if the counter has reached the threshold and every send
attempt fails (retry budget exhausted), the duty-cycle counter is still
reset to 1 and the delivery is reported failed, but the measurement buffer
is CLEARED (emptied), not retained: the batch after the delivery phase is
empty. -/
theorem C1_exhausted_retries_clear {α : Type} (sends : Nat → Bool) (c : Nat)
    (b : List α) (hc : configuration.num_of_cycles ≤ c)
    (hfail : ∀ i, sends i = false) :
    (deliveryPhase sends configuration c b).batch = [] ∧
      (deliveryPhase sends configuration c b).cycle = 1 ∧
      (deliveryPhase sends configuration c b).send_result = false := by
  have hb := deliveryPhase_threshold sends configuration c b hc
  have hcy := deliveryPhase_cycle sends configuration c b
  rcases deliveryPhase_threshold_cases sends configuration c b hc with h | h
  · exact ⟨hb.1, by rw [hcy, if_pos hc], h.2.2⟩
  · obtain ⟨i, _, hi⟩ := h.2
    rw [hfail i] at hi
    exact absurd hi (by simp)

/-- Witness for C1 (amended) at the counterexample scenario. -/
theorem C1_exhausted_retries_clear_witness :
    (deliveryPhase (fun _ => false) configuration 10 [(7 : Nat)]).batch = [] ∧
      (deliveryPhase (fun _ => false) configuration 10 [(7 : Nat)]).cycle = 1 ∧
      (deliveryPhase (fun _ => false) configuration 10 [(7 : Nat)]).send_result
        = false :=
  C1_exhausted_retries_clear (fun _ => false) 10 [(7 : Nat)]
    (by norm_num [configuration]) (fun _ => rfl)

/-- C2: the batch is cleared iff some send attempt of this cycle's delivery
phase succeeded or the full retry budget was attempted and failed; below the
threshold the batch is never cleared (and is left unchanged); clearing
empties the batch. -/
theorem C2_clear_iff {α : Type} (sends : Nat → Bool) (c : Nat) (b : List α) :
    ((deliveryPhase sends configuration c b).cleared = true ↔
      ((∃ i ∈ (deliveryPhase sends configuration c b).attempts,
          sends i = true) ∨
        ((deliveryPhase sends configuration c b).attempts.length =
            configuration.num_of_send_retries ∧
          ∀ i ∈ (deliveryPhase sends configuration c b).attempts,
            sends i = false))) ∧
    (c < configuration.num_of_cycles →
      (deliveryPhase sends configuration c b).cleared = false ∧
      (deliveryPhase sends configuration c b).batch = b) ∧
    ((deliveryPhase sends configuration c b).cleared = true →
      (deliveryPhase sends configuration c b).batch = []) := by
  by_cases hc : configuration.num_of_cycles ≤ c
  · have hb := deliveryPhase_threshold sends configuration c b hc
    refine ⟨?_, fun hlt => absurd hc (Nat.not_le.mpr hlt), fun _ => hb.1⟩
    rw [hb.2]
    simp only [true_iff]
    rcases deliveryPhase_threshold_cases sends configuration c b hc with h | h
    · right
      rw [h.1]
      exact ⟨List.length_range _, h.2.1⟩
    · left
      exact h.2
  · have hlt : c < configuration.num_of_cycles := Nat.not_le.mp hc
    rw [deliveryPhase_below sends configuration c b hlt]
    simp [configuration]

/-- Witness for C2 on a below-threshold cycle: no clearing, batch unchanged. -/
theorem C2_clear_iff_witness :
    (deliveryPhase (fun _ => false) configuration 3 [(5 : Nat)]).cleared = false ∧
      (deliveryPhase (fun _ => false) configuration 3 [(5 : Nat)]).batch = [5] :=
  (C2_clear_iff (fun _ => false) 3 [(5 : Nat)]).2.1 (by norm_num [configuration])

/-- C4: the duty-cycle counter ends every cycle in `[1, threshold]`; a cycle
whose counter has reached the threshold makes at least one delivery attempt
and resets the counter to 1 regardless of the attempts' outcomes; every
other cycle increments it by exactly 1; starting from 1, nine consecutive
non-delivery cycles advance it to 10 and the tenth cycle resets it to 1. -/
theorem C4_counter_invariant {α : Type} (sends : Nat → Bool) (c : Nat)
    (b : List α) (sends2 : Nat → Nat → Bool) (records : Nat → α) :
    (1 ≤ (deliveryPhase sends configuration c b).cycle ∧
      (deliveryPhase sends configuration c b).cycle ≤
        configuration.num_of_cycles) ∧
    (configuration.num_of_cycles ≤ c →
      (deliveryPhase sends configuration c b).cycle = 1 ∧
      (deliveryPhase sends configuration c b).attempts ≠ []) ∧
    (c < configuration.num_of_cycles →
      (deliveryPhase sends configuration c b).cycle = c + 1) ∧
    (∀ k, k ≤ 9 → (counterTraj sends2 records k).1 = k + 1) ∧
    (counterTraj sends2 records 10).1 = 1 := by
  have hcy := deliveryPhase_cycle sends configuration c b
  have htraj : ∀ k, k ≤ 9 → (counterTraj sends2 records k).1 = k + 1 := by
    intro k
    induction k with
    | zero => intro _; rfl
    | succ k ih =>
        intro hk
        have hk9 : k ≤ 9 := Nat.le_of_succ_le hk
        have hkv := ih hk9
        show (runCycle (sends2 k) configuration (counterTraj sends2 records k).1
          (counterTraj sends2 records k).2 (records k)).cycle = k + 1 + 1
        rw [runCycle, deliveryPhase_cycle, hkv]
        have : ¬ configuration.num_of_cycles ≤ k + 1 := by
          simp only [configuration]
          omega
        rw [if_neg this]
  refine ⟨?_, ?_, ?_, htraj, ?_⟩
  · rw [hcy]
    by_cases hc : configuration.num_of_cycles ≤ c
    · rw [if_pos hc]
      simp [configuration]
    · rw [if_neg hc]
      simp only [configuration] at hc ⊢
      omega
  · intro hc
    refine ⟨by rw [hcy, if_pos hc], ?_⟩
    rcases deliveryPhase_threshold_cases sends configuration c b hc with h | h
    · rw [h.1]
      simp [configuration]
    · obtain ⟨i, hmem, _⟩ := h.2
      exact List.ne_nil_of_mem hmem
  · intro hlt
    rw [hcy, if_neg (Nat.not_le.mpr hlt)]
  · show (runCycle (sends2 9) configuration (counterTraj sends2 records 9).1
      (counterTraj sends2 records 9).2 (records 9)).cycle = 1
    rw [runCycle, deliveryPhase_cycle, htraj 9 (by omega)]
    rw [if_pos (by norm_num [configuration])]

/-- Witness for C4: tenth cycle resets to 1 (delivery attempted), a
below-threshold cycle increments. -/
theorem C4_counter_invariant_witness :
    (deliveryPhase (fun _ => true) configuration 10 [(0 : Nat)]).cycle = 1 ∧
      (deliveryPhase (fun _ => false) configuration 4 [(0 : Nat)]).cycle = 5 :=
  ⟨((C4_counter_invariant (fun _ => true) 10 [(0 : Nat)]
      (fun _ _ => false) (fun _ => 0)).2.1 (by norm_num [configuration])).1,
    (C4_counter_invariant (fun _ => false) 4 [(0 : Nat)]
      (fun _ _ => false) (fun _ => 0)).2.2.1 (by norm_num [configuration])⟩

/-- C7: `get_median` computes the standard order-statistic median of any
non-empty reading list: against ANY sorted reordering `s` of the input it
agrees with the spec's median of `s` (middle element for odd length, mean of
the two middle elements for even length); in particular
`get_median [2,4] = 3` and `get_median [1,5,9] = 5`. -/
theorem C7_median (l s : List ℚ) (hne : l ≠ []) (hperm : s.Perm l)
    (hsort : s.Sorted (· ≤ ·)) :
    get_median l = medianSpec s ∧
      get_median [2, 4] = 3 ∧ get_median [1, 5, 9] = 5 := by
  refine ⟨?_, ?_, ?_⟩
  · have hkey : get_median l = medianSpec (l.insertionSort (· ≤ ·)) := rfl
    have hs : s = l.insertionSort (· ≤ ·) := by
      refine List.eq_of_perm_of_sorted ?_ hsort
        (List.sorted_insertionSort (· ≤ ·) l)
      exact hperm.trans (List.perm_insertionSort (· ≤ ·) l).symm
    rw [hkey, hs]
  · norm_num [get_median, List.insertionSort, List.orderedInsert]
  · norm_num [get_median, List.insertionSort, List.orderedInsert]

/-- Witness for C7 at [2,4]: the sorted reordering is [2,4] itself and the
median is 3. -/
theorem C7_median_witness :
    get_median [2, 4] = medianSpec [2, 4] ∧ get_median [2, 4] = 3 :=
  ⟨(C7_median [2, 4] [2, 4] (by simp) (List.Perm.refl _)
      (by norm_num [List.sorted_cons])).1,
    (C7_median [2, 4] [2, 4] (by simp) (List.Perm.refl _)
      (by norm_num [List.sorted_cons])).2.1⟩

/-- C8 (corrected), counterexample to the claim as stated: the counter load
has no first-run defaulting branch — it returns the raw byte in slot 0, so
on a first run whose non-volatile slot holds the erased-flash byte 255 it
returns 255, not 1. -/
theorem C8_counterexample : nvm_load 255 ≠ 1 := by decide

/-- C8 (amended): the counter load returns the raw byte stored at slot 0 of
non-volatile memory (no first-run default); after an ordinary restart
without power loss, a load observes exactly the value last saved (for the
byte-representable values the program stores). -/
theorem C8_nvm_roundtrip (v : Nat) (hv : v < 256) (n : Byte) :
    nvm_load (nvm_save v) = v ∧ nvm_load n = n :=
  ⟨by simp [nvm_load, nvm_save, Nat.mod_eq_of_lt hv], rfl⟩

/-- Witness for C8 (amended): the value 7 survives the save/load round
trip. -/
theorem C8_nvm_roundtrip_witness :
    nvm_load (nvm_save 7) = 7 ∧ nvm_load 42 = 42 :=
  C8_nvm_roundtrip 7 (by norm_num) 42

/-- C9: on any read/parse failure of the durable measurement store, the load
yields the empty batch instead of propagating the error, and the cycle
proceeds normally with it: the fresh record is appended to the empty batch,
and a below-threshold cycle ends holding exactly that one record. -/
theorem C9_load_failure_empty (e : String) (r : MeasurementRecord)
    (sends : Nat → Bool) (c : Nat) (hc : c < configuration.num_of_cycles) :
    loadMeasurements (Except.error e) = [] ∧
      loadMeasurements (Except.error e) ++ [r] = [r] ∧
      (runCycle sends configuration c
        (loadMeasurements (Except.error e)) r).batch = [r] := by
  refine ⟨rfl, rfl, ?_⟩
  rw [runCycle, deliveryPhase_below sends configuration c _ hc]
  rfl

/-- Witness for C9 at a concrete parse error and record. -/
theorem C9_load_failure_empty_witness :
    loadMeasurements (Except.error "syntax error") = [] ∧
      loadMeasurements (Except.error "syntax error") ++ [⟨21, 135, "t"⟩]
        = [⟨21, 135, "t"⟩] ∧
      (runCycle (fun _ => false) configuration 2
        (loadMeasurements (Except.error "syntax error"))
        ⟨21, 135, "t"⟩).batch = [⟨21, 135, "t"⟩] :=
  C9_load_failure_empty "syntax error" ⟨21, 135, "t"⟩ (fun _ => false) 2
    (by norm_num [configuration])

/-! ## Helper lemmas about the block loop -/

theorem bytesStartsWith_refl (p : Bytes) : bytesStartsWith p p = true := by
  induction p with
  | nil => rfl
  | cons a as ih => simp [bytesStartsWith, ih]

/-- Whatever the server answers, every datagram of the block loop is
addressed to the transfer address the loop was started with. -/
theorem sendBlocks_dest (acks : Nat → Option Bytes) (dest : Addr) :
    ∀ (rest : Bytes) (bn : Nat),
      ∀ e ∈ (sendBlocks acks dest rest bn).1, e.dest = dest := by
  have H : ∀ (n : Nat) (rest : Bytes), rest.length = n → ∀ bn,
      ∀ e ∈ (sendBlocks acks dest rest bn).1, e.dest = dest := by
    intro n
    induction n using Nat.strong_induction_on with
    | _ n ih =>
      intro rest hlen bn e he
      rw [sendBlocks] at he
      cases hack : acks bn with
      | none =>
          rw [hack] at he
          simp at he
          rw [he]
      | some response =>
          rw [hack] at he
          dsimp only at he
          by_cases hpre :
              bytesStartsWith response ([0, 4] ++ be2 bn) = false
          · rw [if_pos hpre] at he
            simp at he
            rw [he]
          · rw [if_neg hpre] at he
            by_cases hshort : (rest.take 512).length < 512
            · rw [dif_pos hshort] at he
              simp at he
              rw [he]
            · rw [dif_neg hshort] at he
              simp only [List.mem_cons] at he
              rcases he with he | he
              · rw [he]
              · have hge : 512 ≤ rest.length := by
                  rw [List.length_take] at hshort
                  omega
                refine ih (rest.drop 512).length ?_
                  (rest.drop 512) rfl (bn + 1) e he
                rw [List.length_drop]
                omega
  intro rest bn
  exact H rest.length rest rfl bn

/-- Full characterisation of the block loop against a server whose ACKs are
all well-formed: the loop reports success (`err_flag = false`), the data
datagrams carry the consecutive block numbers `bn, bn+1, …`, their payload
lengths are 512 for every block except the last, whose length is
`rest.length % 512 < 512`, and the payloads concatenate back to the whole
remaining data. -/
theorem sendBlocks_good (dest : Addr) :
    ∀ (rest : Bytes) (bn : Nat),
      (sendBlocks goodAcks dest rest bn).2 = some false ∧
      ((sendBlocks goodAcks dest rest bn).1).map DataEvent.blockNum =
        List.range' bn (rest.length / 512 + 1) ∧
      ((sendBlocks goodAcks dest rest bn).1).map
          (fun e => e.payload.length) =
        List.replicate (rest.length / 512) 512 ++ [rest.length % 512] ∧
      (((sendBlocks goodAcks dest rest bn).1).map DataEvent.payload).flatten
        = rest := by
  have H : ∀ (n : Nat) (rest : Bytes), rest.length = n → ∀ bn,
      (sendBlocks goodAcks dest rest bn).2 = some false ∧
      ((sendBlocks goodAcks dest rest bn).1).map DataEvent.blockNum =
        List.range' bn (rest.length / 512 + 1) ∧
      ((sendBlocks goodAcks dest rest bn).1).map
          (fun e => e.payload.length) =
        List.replicate (rest.length / 512) 512 ++ [rest.length % 512] ∧
      (((sendBlocks goodAcks dest rest bn).1).map DataEvent.payload).flatten
        = rest := by
    intro n
    induction n using Nat.strong_induction_on with
    | _ n ih =>
      intro rest hlen bn
      have hgood : goodAcks bn = some ([0, 4] ++ be2 bn) := rfl
      have hpre : ¬ bytesStartsWith ([0, 4] ++ be2 bn) ([0, 4] ++ be2 bn)
          = false := by
        rw [bytesStartsWith_refl]
        simp
      rw [sendBlocks, hgood]
      dsimp only
      rw [if_neg hpre]
      by_cases hshort : (rest.take 512).length < 512
      · have hlt : rest.length < 512 := by
          rw [List.length_take] at hshort
          omega
        rw [dif_pos hshort]
        have htake : rest.take 512 = rest :=
          List.take_of_length_le (by omega)
        have hdiv : rest.length / 512 = 0 := Nat.div_eq_of_lt hlt
        have hmod : rest.length % 512 = rest.length := Nat.mod_eq_of_lt hlt
        simp [htake, hdiv, hmod, List.range'_one]
      · have hge : 512 ≤ rest.length := by
          rw [List.length_take] at hshort
          omega
        rw [dif_neg hshort]
        have hdroplen : (rest.drop 512).length = rest.length - 512 := by
          simp [List.length_drop]
        have hlt' : (rest.drop 512).length < n := by omega
        obtain ⟨ih2, ihnum, ihlen, ihjoin⟩ :=
          ih (rest.drop 512).length hlt' (rest.drop 512) rfl (bn + 1)
        have htakelen : (rest.take 512).length = 512 := by
          rw [List.length_take]
          omega
        have hdiv : rest.length / 512 = (rest.drop 512).length / 512 + 1 := by
          rw [hdroplen]
          omega
        have hmod : rest.length % 512 = (rest.drop 512).length % 512 := by
          rw [hdroplen]
          omega
        refine ⟨ih2, ?_, ?_, ?_⟩
        · simp only [List.map_cons, ihnum, hdiv]
          simp [List.range'_succ]
        · simp only [List.map_cons, ihlen, hdiv, hmod, htakelen,
            List.replicate_succ, List.cons_append]
        · simp only [List.map_cons, List.flatten_cons, ihjoin]
          exact List.take_append_drop 512 rest
  intro rest bn
  exact H rest.length rest rfl bn

/-- Unfolding of one whole `send_log_file` call against a server that ACKs
the WRQ from address `a` and then ACKs every data block. -/
theorem send_log_file_good (a : Addr) (ip : String) (port : Nat)
    (input fn : Bytes) :
    send_log_file ⟨some ([0, 4, 0, 0], a), goodAcks⟩ ip port input fn =
      { ok := true
        wrqDest := ⟨ip, port⟩
        wrqPacket := [0, 2] ++ fn ++ [0] ++ [111, 99, 116, 101, 116] ++ [0]
        blockEvents := (sendBlocks goodAcks a (replaceQuotes input) 1).1
        sockClosed := true } := by
  have h2 := (sendBlocks_good a (replaceQuotes input) 1).1
  rw [send_log_file]
  dsimp only
  rw [if_neg (by rw [bytesStartsWith_refl]; simp)]
  rw [h2]
  rfl

/-- C3 (code bug): with a server that never replies, the receive of the WRQ
acknowledgment times out, the blanket exception handler on lines 201-204
returns failure, and `sock.close()` is never executed — the transport
resource is NOT released on this exit path, contradicting the claim that
every exit path closes the socket.  (The mid-transfer timeout path leaks the
socket the same way.) -/
theorem C3_socket_leak_on_timeout :
    (send_log_file ⟨none, fun _ => none⟩ "10.0.0.2" 69 [] []).ok = false ∧
      (send_log_file ⟨none, fun _ => none⟩ "10.0.0.2" 69 [] []).sockClosed = false ∧
      (send_log_file ⟨some ([0, 4, 0, 0], ⟨"10.0.0.2", 4242⟩), fun _ => none⟩ "10.0.0.2" 69 [] []).sockClosed = false := by
  refine ⟨rfl, rfl, ?_⟩
  rw [send_log_file]
  dsimp only
  rw [if_neg (by rw [bytesStartsWith_refl]; simp)]
  rw [sendBlocks]

/-- C5: against a fully acknowledging server, a `send_log_file` call
succeeds, its data datagrams carry block numbers 1, 2, … (each exactly once,
increasing by 1), every block except the last carries exactly 512 payload
bytes and the last carries `len % 512 < 512` bytes (the terminating
short block); in particular a 1000-byte payload gives exactly 2 data
datagrams with payload sizes [512, 488], and an exact-512-byte payload gives
exactly 2 data datagrams with payload sizes [512, 0]. -/
theorem C5_block_framing (ip : String) (port : Nat) (a : Addr)
    (data fn : Bytes) :
    (send_log_file ⟨some ([0, 4, 0, 0], a), goodAcks⟩ ip port data fn).ok = true ∧
    (send_log_file ⟨some ([0, 4, 0, 0], a), goodAcks⟩ ip port data fn).blockEvents.map DataEvent.blockNum = List.range' 1 (data.length / 512 + 1) ∧
    (send_log_file ⟨some ([0, 4, 0, 0], a), goodAcks⟩ ip port data fn).blockEvents.map (fun e => e.payload.length) = List.replicate (data.length / 512) 512 ++ [data.length % 512] ∧
    (data.length = 1000 →
      (send_log_file ⟨some ([0, 4, 0, 0], a), goodAcks⟩ ip port data fn).blockEvents.length = 2 ∧
      (send_log_file ⟨some ([0, 4, 0, 0], a), goodAcks⟩ ip port data fn).blockEvents.map (fun e => e.payload.length) = [512, 488]) ∧
    (data.length = 512 →
      (send_log_file ⟨some ([0, 4, 0, 0], a), goodAcks⟩ ip port data fn).blockEvents.length = 2 ∧
      (send_log_file ⟨some ([0, 4, 0, 0], a), goodAcks⟩ ip port data fn).blockEvents.map (fun e => e.payload.length) = [512, 0]) := by
  have hrepl : (replaceQuotes data).length = data.length :=
    List.length_map _ _
  obtain ⟨h2, hnum, hlen, hjoin⟩ := sendBlocks_good a (replaceQuotes data) 1
  rw [send_log_file_good]
  dsimp only
  rw [hrepl] at hnum hlen
  have hcount :
      (sendBlocks goodAcks a (replaceQuotes data) 1).1.length =
        data.length / 512 + 1 := by
    have := congrArg List.length hlen
    simpa using this
  refine ⟨rfl, hnum, hlen, ?_, ?_⟩
  · intro h1000
    rw [h1000] at hcount hlen
    norm_num at hcount hlen
    exact ⟨hcount, by rw [hlen]⟩
  · intro h512
    rw [h512] at hcount hlen
    norm_num at hcount hlen
    exact ⟨hcount, by rw [hlen]⟩

/-- Witness for C5 with a concrete 1000-byte payload. -/
theorem C5_block_framing_witness :
    (send_log_file ⟨some ([0, 4, 0, 0], ⟨"srv", 7777⟩), goodAcks⟩ "srv" 69 (List.replicate 1000 65) [100]).blockEvents.length = 2 ∧
      (send_log_file ⟨some ([0, 4, 0, 0], ⟨"srv", 7777⟩), goodAcks⟩ "srv" 69 (List.replicate 1000 65) [100]).blockEvents.map (fun e => e.payload.length) = [512, 488] :=
  (C5_block_framing "srv" 69 ⟨"srv", 7777⟩ (List.replicate 1000 65)
    [100]).2.2.2.1 (by rw [List.length_replicate])

/-- The WRQ datagram's destination and bytes do not depend on the server's
behaviour. -/
theorem send_log_file_wrq (srv : TftpServer) (ip : String) (port : Nat)
    (input fn : Bytes) :
    (send_log_file srv ip port input fn).wrqDest = ⟨ip, port⟩ ∧
      (send_log_file srv ip port input fn).wrqPacket =
        [0, 2] ++ fn ++ [0] ++ [111, 99, 116, 101, 116] ++ [0] := by
  rw [send_log_file]
  cases hw : srv.wrqReply with
  | none => exact ⟨rfl, rfl⟩
  | some pr =>
      obtain ⟨resp, a⟩ := pr
      dsimp only
      by_cases hok : bytesStartsWith resp [0, 4, 0, 0] = false
      · rw [if_pos hok]
        exact ⟨rfl, rfl⟩
      · rw [if_neg hok]
        cases hr : (sendBlocks srv.dataAcks a (replaceQuotes input) 1).2 with
        | none => exact ⟨rfl, rfl⟩
        | some ef => exact ⟨rfl, rfl⟩

/-- When the WRQ is properly acknowledged from address `a`, the data
datagrams of the call are exactly those of the block loop run against `a`. -/
theorem send_log_file_blockEvents (srv : TftpServer) (ip : String)
    (port : Nat) (input fn : Bytes) (resp : Bytes) (a : Addr)
    (hw : srv.wrqReply = some (resp, a))
    (hok : ¬ bytesStartsWith resp [0, 4, 0, 0] = false) :
    (send_log_file srv ip port input fn).blockEvents =
      (sendBlocks srv.dataAcks a (replaceQuotes input) 1).1 := by
  rw [send_log_file, hw]
  dsimp only
  rw [if_neg hok]
  cases hr : (sendBlocks srv.dataAcks a (replaceQuotes input) 1).2 with
  | none => rfl
  | some ef => rfl

/-- C6: for every filename and payload, the WRQ datagram is exactly
`0x00 0x02 + filename + 0x00 + "octet" + 0x00` addressed to the configured
server address; if the server does not reply, or replies with anything not
beginning `0x00 0x04 0x00 0x00`, the call fails without sending any data
datagram; and when the WRQ is acknowledged, every data datagram of the
session is addressed to the source address of that acknowledgment. -/
theorem C6_wrq_protocol (srv : TftpServer) (ip : String) (port : Nat)
    (input fn : Bytes) :
    ((send_log_file srv ip port input fn).wrqDest = ⟨ip, port⟩ ∧
      (send_log_file srv ip port input fn).wrqPacket = [0, 2] ++ fn ++ [0] ++ [111, 99, 116, 101, 116] ++ [0]) ∧
    (srv.wrqReply = none →
      (send_log_file srv ip port input fn).ok = false ∧
      (send_log_file srv ip port input fn).blockEvents = []) ∧
    (∀ resp a, srv.wrqReply = some (resp, a) →
      bytesStartsWith resp [0, 4, 0, 0] = false →
      (send_log_file srv ip port input fn).ok = false ∧
      (send_log_file srv ip port input fn).blockEvents = []) ∧
    (∀ resp a, srv.wrqReply = some (resp, a) →
      ∀ e ∈ (send_log_file srv ip port input fn).blockEvents, e.dest = a) := by
  refine ⟨send_log_file_wrq srv ip port input fn, ?_, ?_, ?_⟩
  · intro hw
    rw [send_log_file, hw]
    exact ⟨rfl, rfl⟩
  · intro resp a hw hbad
    rw [send_log_file, hw]
    dsimp only
    rw [if_pos hbad]
    exact ⟨rfl, rfl⟩
  · intro resp a hw e he
    by_cases hok : bytesStartsWith resp [0, 4, 0, 0] = false
    · rw [send_log_file, hw] at he
      dsimp only at he
      rw [if_pos hok] at he
      simp at he
    · rw [send_log_file_blockEvents srv ip port input fn resp a hw hok] at he
      exact sendBlocks_dest srv.dataAcks a (replaceQuotes input) 1 e he

/-- Witness for C6: a reply that is not a proper WRQ acknowledgment makes
the call fail with no data datagrams sent. -/
theorem C6_wrq_protocol_witness :
    (send_log_file ⟨some ([9, 9], ⟨"h", 9⟩), goodAcks⟩ "s" 69 [] [70]).ok = false ∧
      (send_log_file ⟨some ([9, 9], ⟨"h", 9⟩), goodAcks⟩ "s" 69 [] [70]).blockEvents = [] :=
  (C6_wrq_protocol ⟨some ([9, 9], ⟨"h", 9⟩), goodAcks⟩ "s" 69 [] [70]).2.2.1
    [9, 9] ⟨"h", 9⟩ rfl rfl

/-- A byte string containing a single-quote byte is changed by the
replacement on line 124. -/
theorem replaceQuotes_ne (s : Bytes) (h : 39 ∈ s) : replaceQuotes s ≠ s := by
  induction s with
  | nil => simp at h
  | cons a t ih =>
      intro heq
      rw [replaceQuotes, List.map_cons] at heq
      by_cases ha : a = 39
      · rw [if_pos ha] at heq
        injection heq with h1 _
        rw [ha] at h1
        exact absurd h1 (by decide)
      · rw [if_neg ha] at heq
        injection heq with _ h2
        have h39 : 39 ∈ t := by
          rcases List.mem_cons.mp h with h | h
          · exact absurd h.symm ha
          · exact h
        exact ih h39 h2

/-- C10: line 124 replaces every single-quote byte in the serialized batch
with a double-quote byte before transmission: an input with no single quote
is transmitted unchanged, an input containing a single quote is changed, and
against a fully acknowledging server the concatenated payload bytes of the
data datagrams are exactly the quote-replaced input. -/
theorem C10_quote_replacement (s fn : Bytes) (ip : String) (port : Nat)
    (a : Addr) :
    (39 ∉ s → replaceQuotes s = s) ∧
    (39 ∈ s → replaceQuotes s ≠ s) ∧
    ((send_log_file ⟨some ([0, 4, 0, 0], a), goodAcks⟩ ip port s fn).blockEvents.map DataEvent.payload).flatten = replaceQuotes s := by
  refine ⟨?_, replaceQuotes_ne s, ?_⟩
  · intro h
    rw [replaceQuotes]
    conv_rhs => rw [← List.map_id s]
    refine List.map_congr_left ?_
    intro x hx
    have hx39 : ¬ x = 39 := fun hx39 => h (hx39 ▸ hx)
    simp [hx39]
  · rw [send_log_file_good]
    exact (sendBlocks_good a (replaceQuotes s) 1).2.2.2

/-- Witness for C10: an input with a quote byte is changed, one without is
not. -/
theorem C10_quote_replacement_witness :
    replaceQuotes [70, 39, 70] ≠ [70, 39, 70] ∧
      replaceQuotes [70, 34] = [70, 34] :=
  ⟨(C10_quote_replacement [70, 39, 70] [] "s" 69 ⟨"h", 1⟩).2.1 (by decide),
    (C10_quote_replacement [70, 34] [] "s" 69 ⟨"h", 1⟩).1 (by decide)⟩

end Pico
